import Mathlib

/-!
Shallow embedding of the action-processing engine of `actions.js`
(blocktogether). Pure data is embedded directly; the asynchronous
collaborators (the Twitter client and the sequelize store) are embedded by
passing their outcomes as explicit parameters and recording the calls the
code issues in an event trace. Line numbers refer to `src/actions.js`.
-/

namespace Blocktogether

/-- Status values of an `Action` row, as used by the engine
(`Action.DONE`, `Action.CANCELLED_DUPLICATE`, ...). -/
inductive Status where
  | pending
  | done
  | cancelled_duplicate
  | cancelled_following
  | cancelled_unblocked
  | cancelled_self
  | deferred_target_suspended
deriving DecidableEq, Repr

/-- An `Action` row: one queued block request. `updatedAt` is an abstract
timestamp (only its ordering matters to the engine). -/
structure Action where
  source_uid : String
  sink_uid : String
  type : String
  status : Status
  updatedAt : Nat
deriving DecidableEq, Repr

/-- A friendship object as returned by the Twitter `friendships/lookup`
endpoint: an id, a screen name and a list of connection tags
(examples: "following", "blocking"). -/
structure Friendship where
  id_str : String
  screen_name : String
  connections : List String
deriving DecidableEq, Repr

/-- An `UnblockedUser` row: records that the source previously unblocked
`sink_uid` (the suppression set). -/
structure UnblockedUser where
  sink_uid : String
deriving DecidableEq, Repr

/-- A `BtUser` row with its included `UnblockedUser` rows
(credentials are opaque to the engine and omitted). -/
structure BtUser where
  uid : String
  screen_name : String
  unblockedUsers : List UnblockedUser
deriving DecidableEq, Repr

/-- Observable events of one run: the two external Twitter calls the code
can issue, and the log statements. -/
inductive Ev where
  | lookupCall (user_ids : List String)
  | blockCall (user_id : String)
  | logDebug
  | logInfo
  | logError
deriving DecidableEq, Repr

/-- An event is an external call when it is one of the two Twitter calls. -/
def Ev.isExternal : Ev → Bool
  | .lookupCall _ => true
  | .blockCall _ => true
  | _ => false

/-- An event is a bulk relationship lookup call. -/
def Ev.isLookup : Ev → Bool
  | .lookupCall _ => true
  | _ => false

/-- Number of external (Twitter) calls recorded in a trace. -/
def countExternalCalls (trace : List Ev) : Nat :=
  (trace.filter Ev.isExternal).length

/-- Number of bulk relationship lookup calls recorded in a trace. -/
def countLookupCalls (trace : List Ev) : Nat :=
  (trace.filter Ev.isLookup).length

/-- Embedding of `_.indexBy(friendships, 'id_str')` (line 157) followed by a
map lookup: a key maps to the last element of the list bearing it. -/
def indexBy (friendships : List Friendship) (uid : String) : Option Friendship :=
  friendships.reverse.find? (fun f => f.id_str == uid)

/-- Embedding of the per-action decision of
`blockUnlessFollowingWithFriendships` (lines 188-206): the value of
`newState` after the if/else-if chain, where `none` stands for the JS
`null` ("no obstacle found, attempt the block write"). -/
def classify (sourceBtUser : BtUser) (indexedFriendships : String → Option Friendship)
    (action : Action) : Option Status :=
  match indexedFriendships action.sink_uid with
  | none => some .deferred_target_suspended
  | some friendship =>
    if friendship.connections.contains "blocking" then some .cancelled_duplicate
    else if friendship.connections.contains "following" then some .cancelled_following
    else if sourceBtUser.unblockedUsers.any (fun u => u.sink_uid == action.sink_uid) then
      some .cancelled_unblocked
    else if sourceBtUser.uid == action.sink_uid then some .cancelled_self
    else none

/-- Result of running the sequential executor on a batch: the actions it
visited paired with their resulting status, the actions it never reached
(their stored status is unchanged), and the event trace. -/
structure RunResult where
  processed : List (Action × Status)
  remaining : List Action
  trace : List Ev
deriving DecidableEq, Repr

/-- Resulting status of every action of the batch, in order: visited actions
carry the status the run gave them, unreached actions keep their stored
status. -/
def RunResult.finalStatuses (r : RunResult) : List (Action × Status) :=
  r.processed ++ r.remaining.map (fun a => (a, a.status))

/-- Embedding of the recursion of `blockUnlessFollowingWithFriendships`
(lines 176-236). `blockOk` gives the outcome of `twitter.blocks('create')`
for a sink uid and `saveOk` the outcome of `action.save()`. The branches:

- a non-null `newState` goes through `setActionStatus`, which sets the
  status, logs a save error if any, and always calls `next` (lines 210-211,
  242-248);
- otherwise the block write is attempted (lines 216-234). On success the
  action becomes DONE via `setActionStatus` and `next` runs; on error the
  code only logs (lines 223-228) — it never calls `next`, so the rest of
  the batch is left untouched (it lands in `remaining`). -/
def runActions (sourceBtUser : BtUser) (indexedFriendships : String → Option Friendship)
    (blockOk : String → Bool) (saveOk : Action → Bool) : List Action → RunResult
  | [] => ⟨[], [], []⟩
  | action :: rest =>
    match classify sourceBtUser indexedFriendships action with
    | some newState =>
      let r := runActions sourceBtUser indexedFriendships blockOk saveOk rest
      ⟨(action, newState) :: r.processed, r.remaining,
        (if saveOk action then [] else [Ev.logError]) ++ r.trace⟩
    | none =>
      if blockOk action.sink_uid then
        let r := runActions sourceBtUser indexedFriendships blockOk saveOk rest
        ⟨(action, Status.done) :: r.processed, r.remaining,
          Ev.logDebug :: Ev.blockCall action.sink_uid :: Ev.logInfo ::
            ((if saveOk action then [] else [Ev.logError]) ++ r.trace)⟩
      else
        ⟨[(action, action.status)], rest,
          [Ev.logDebug, Ev.blockCall action.sink_uid, Ev.logError, Ev.logError]⟩

/-- Embedding of the entry check of `blockUnlessFollowingWithFriendships`
(lines 178-180): a null (`none`) or empty action list returns at once. -/
def blockUnlessFollowingWithFriendships (sourceBtUser : BtUser)
    (indexedFriendships : String → Option Friendship)
    (blockOk : String → Bool) (saveOk : Action → Bool) :
    Option (List Action) → RunResult
  | none => ⟨[], [], []⟩
  | some actions => runActions sourceBtUser indexedFriendships blockOk saveOk actions

/-- Embedding of `blockUnlessFollowing` (lines 142-162). `lookupResult` is
the outcome of the `twitter.friendships('lookup')` call (`none` = the
callback got an error). More than 100 sink uids: log an error and return
before any call. Otherwise the bulk lookup is issued; on error only a log
happens and no action is classified; on success the results are indexed by
`id_str` and handed to the executor. -/
def blockUnlessFollowing (sourceBtUser : BtUser) (sinkUids : List String)
    (lookupResult : Option (List Friendship))
    (blockOk : String → Bool) (saveOk : Action → Bool) (actions : List Action) : RunResult :=
  if sinkUids.length > 100 then
    ⟨[], actions, [Ev.logError]⟩
  else
    match lookupResult with
    | none => ⟨[], actions, [Ev.logDebug, Ev.lookupCall sinkUids, Ev.logError]⟩
    | some friendships =>
      let r := runActions sourceBtUser (indexBy friendships) blockOk saveOk actions
      ⟨r.processed, r.remaining, Ev.logDebug :: Ev.lookupCall sinkUids :: r.trace⟩

/-- Embedding of `processActionsForUser` (lines 122-131): with at least one
action, the sink uids are collected and passed to `blockUnlessFollowing`;
an empty list does nothing. -/
def processActionsForUser (btUser : BtUser) (lookupResult : Option (List Friendship))
    (blockOk : String → Bool) (saveOk : Action → Bool) (actions : List Action) : RunResult :=
  if actions.length > 0 then
    blockUnlessFollowing btUser (actions.map (fun a => a.sink_uid))
      lookupResult blockOk saveOk actions
  else
    ⟨[], [], []⟩

/-- Outcome of the `action.save()` promise in `setActionStatus`. -/
inductive SaveOutcome where
  | ok
  | fail
deriving DecidableEq, Repr

/-- Result of `setActionStatus`: the mutated action, how many times the
`next` continuation was invoked, and the log trace. -/
structure SetStatusResult where
  action : Action
  nextCalls : Nat
  trace : List Ev
deriving DecidableEq, Repr

/-- Embedding of the promise returned by `action.save()` (lines 244-247):
exactly one of the error / success callbacks runs, chosen by the outcome. -/
def savePromise (outcome : SaveOutcome) (onError onSuccess : Nat × List Ev) : Nat × List Ev :=
  match outcome with
  | .ok => onSuccess
  | .fail => onError

/-- Embedding of `setActionStatus` (lines 242-248): set the status, save,
and hook up the two callbacks: the error callback logs and calls `next`,
the success callback is `next` itself. A callback counts its `next`
invocations in the first component. -/
def setActionStatus (action : Action) (newState : Status) (outcome : SaveOutcome) :
    SetStatusResult :=
  let saved := { action with status := newState }
  let r := savePromise outcome (1, [Ev.logError]) (1, [])
  ⟨saved, r.1, r.2⟩

/-- Row filter of both store queries: `status = "pending" and type = "block"`
(lines 59, 99). -/
def isPendingBlock (a : Action) : Bool :=
  a.status == Status.pending && a.type == "block"

/-- Step of the grouped query: keep a row only when no row with its
source id was kept before. -/
def groupStep (acc : List Action) (a : Action) : List Action :=
  if acc.any (fun b => b.source_uid == a.source_uid) then acc else acc ++ [a]

/-- Modelled from the spec: the `group: 'source_uid'` clause of the store
query in `processBlocks` (lines 57-61). The store itself (sequelize) is not
under `src/`; per the spec the grouped query returns at most one
representative action per distinct source id (store-defined choice; we keep
the first). -/
def groupBySource (l : List Action) : List Action :=
  l.foldl groupStep []

/-- Modelled from the spec: the store query issued by `processBlocks`
(lines 57-61) — up to 300 pending block actions, grouped to one
representative per distinct source id. The caller code only supplies the
where / group / limit parameters; the query semantics follow the spec's
store contract `find_pending_block_actions(group_by_source, limit)`. -/
def processBlocksQuery (db : List Action) : List Action :=
  (groupBySource (db.filter isPendingBlock)).take 300

/-- Ordering used by the per-account query: ascending `updatedAt`. -/
def updatedLE (x y : Action) : Prop :=
  x.updatedAt ≤ y.updatedAt

instance : DecidableRel updatedLE :=
  fun x y => Nat.decLe x.updatedAt y.updatedAt

instance : IsTotal Action updatedLE :=
  ⟨fun x y => Nat.le_total x.updatedAt y.updatedAt⟩

instance : IsTrans Action updatedLE :=
  ⟨fun _ _ _ h1 h2 => Nat.le_trans h1 h2⟩

/-- Modelled from the spec: the store query issued by `btUser.getActions`
in `processActionsForUserId` (lines 90-101) — that account's pending block
actions, ordered by ascending `updatedAt`, limited to 100. The caller code
only supplies the where / order / limit parameters; the query semantics
follow the spec's store contract
`find_pending_block_actions_for_account(account, order=oldest_update_first, limit=100)`. -/
def getActions (btUser : BtUser) (db : List Action) : List Action :=
  (List.insertionSort updatedLE
      (db.filter (fun a => a.source_uid == btUser.uid && isPendingBlock a))).take 100

/-! Helper lemmas (shared; not tied to a single claim). -/

/-- A sink uid absent from the friendship map classifies as deferred. -/
theorem classify_of_no_friendship (u : BtUser) (fr : String → Option Friendship)
    (a : Action) (h : fr a.sink_uid = none) :
    classify u fr a = some Status.deferred_target_suspended := by
  simp [classify, h]

/-- When the classifier lets the write through, the sink had a friendship
entry. -/
theorem classify_eq_none_friendship (u : BtUser) (fr : String → Option Friendship)
    (a : Action) (h : classify u fr a = none) : fr a.sink_uid ≠ none := by
  intro hn
  rw [classify_of_no_friendship u fr a hn] at h
  cases h

/-- When the classifier lets the write through, the action is not a
self-block. -/
theorem classify_eq_none_not_self (u : BtUser) (fr : String → Option Friendship)
    (a : Action) (h : classify u fr a = none) : u.uid ≠ a.sink_uid := by
  rcases hf : fr a.sink_uid with _ | f
  · exact absurd hf (classify_eq_none_friendship u fr a h)
  · intro he
    simp only [classify, hf] at h
    split_ifs at h with h1 h2 h3 h4
    exact h4 (by simp [he])

/-- The executor never issues a bulk lookup call. -/
theorem runActions_trace_not_lookup (u : BtUser) (fr : String → Option Friendship)
    (blockOk : String → Bool) (saveOk : Action → Bool) (l : List Action) :
    ∀ e ∈ (runActions u fr blockOk saveOk l).trace, e.isLookup = false := by
  induction l with
  | nil => intro e he; cases he
  | cons a rest ih =>
    intro e he
    simp only [runActions] at he
    rcases hc : classify u fr a with _ | st <;> rw [hc] at he
    · by_cases hb : blockOk a.sink_uid = true
      · rw [if_pos hb] at he
        simp only [List.mem_cons, List.mem_append] at he
        rcases he with rfl | rfl | rfl | he
        · rfl
        · rfl
        · rfl
        · rcases he with he | he
          · rcases hs : saveOk a <;> rw [hs] at he <;> simp at he
            subst he; rfl
          · exact ih e he
      · rw [if_neg hb] at he
        simp only [List.mem_cons] at he
        rcases he with rfl | rfl | rfl | rfl | he
        · rfl
        · rfl
        · rfl
        · rfl
        · cases he
    · simp only [List.mem_append] at he
      rcases he with he | he
      · rcases hs : saveOk a <;> rw [hs] at he <;> simp at he
        subst he; rfl
      · exact ih e he

/-- A trace whose events are all non-lookups has lookup count zero. -/
theorem countLookupCalls_eq_zero (trace : List Ev)
    (h : ∀ e ∈ trace, e.isLookup = false) : countLookupCalls trace = 0 := by
  unfold countLookupCalls
  rw [List.filter_eq_nil_iff.mpr (by intro e he; simp [h e he])]
  rfl

/-! Claim theorems. -/

/-- C2: the classifier assigns exactly one outcome per action by
first-match-wins precedence: (1) no relationship entry for the sink id →
DEFERRED_TARGET_SUSPENDED; (2) tags include "blocking" →
CANCELLED_DUPLICATE; (3) tags include "following" → CANCELLED_FOLLOWING;
(4) sink id in the suppression set → CANCELLED_UNBLOCKED; (5) source id
equals sink id → CANCELLED_SELF; (6) otherwise the block write is
attempted (`none`). In particular an action whose tags include both
"blocking" and "following" resolves to CANCELLED_DUPLICATE, never
CANCELLED_FOLLOWING. -/
theorem classify_first_match_precedence (u : BtUser)
    (fr : String → Option Friendship) (a : Action) :
    (fr a.sink_uid = none → classify u fr a = some Status.deferred_target_suspended) ∧
    (∀ f, fr a.sink_uid = some f →
      (f.connections.contains "blocking" = true →
        classify u fr a = some Status.cancelled_duplicate) ∧
      (f.connections.contains "blocking" = false →
       f.connections.contains "following" = true →
        classify u fr a = some Status.cancelled_following) ∧
      (f.connections.contains "blocking" = false →
       f.connections.contains "following" = false →
       u.unblockedUsers.any (fun x => x.sink_uid == a.sink_uid) = true →
        classify u fr a = some Status.cancelled_unblocked) ∧
      (f.connections.contains "blocking" = false →
       f.connections.contains "following" = false →
       u.unblockedUsers.any (fun x => x.sink_uid == a.sink_uid) = false →
       u.uid = a.sink_uid →
        classify u fr a = some Status.cancelled_self) ∧
      (f.connections.contains "blocking" = false →
       f.connections.contains "following" = false →
       u.unblockedUsers.any (fun x => x.sink_uid == a.sink_uid) = false →
       u.uid ≠ a.sink_uid →
        classify u fr a = none) ∧
      (f.connections.contains "blocking" = true →
       f.connections.contains "following" = true →
        classify u fr a = some Status.cancelled_duplicate ∧
        classify u fr a ≠ some Status.cancelled_following)) := by
  constructor
  · intro h; simp [classify, h]
  · intro f hf
    refine ⟨?_, ?_, ?_, ?_, ?_, ?_⟩ <;> intros <;> simp_all [classify]

/-- C2 witness: both tags present resolve to CANCELLED_DUPLICATE and not
to CANCELLED_FOLLOWING. -/
theorem classify_first_match_precedence_witness :
    classify (BtUser.mk "u1" "alice" [])
        (fun _ => some (Friendship.mk "s1" "bob" ["blocking", "following"]))
        (Action.mk "u1" "s1" "block" Status.pending 0) =
      some Status.cancelled_duplicate ∧
    classify (BtUser.mk "u1" "alice" [])
        (fun _ => some (Friendship.mk "s1" "bob" ["blocking", "following"]))
        (Action.mk "u1" "s1" "block" Status.pending 0) ≠
      some Status.cancelled_following :=
  ((classify_first_match_precedence (BtUser.mk "u1" "alice" [])
      (fun _ => some (Friendship.mk "s1" "bob" ["blocking", "following"]))
      (Action.mk "u1" "s1" "block" Status.pending 0)).2
    (Friendship.mk "s1" "bob" ["blocking", "following"]) rfl).2.2.2.2.2
    (by decide) (by decide)

/-- C3: called with more than 100 sink uids, the validator performs zero
external calls and logs an error; called with exactly 100 it performs
exactly one bulk relationship lookup call. -/
theorem blockUnlessFollowing_batch_cap (u : BtUser) (sinkUids : List String)
    (lookupResult : Option (List Friendship)) (blockOk : String → Bool)
    (saveOk : Action → Bool) (actions : List Action) :
    (100 < sinkUids.length →
      countExternalCalls
        (blockUnlessFollowing u sinkUids lookupResult blockOk saveOk actions).trace = 0 ∧
      Ev.logError ∈
        (blockUnlessFollowing u sinkUids lookupResult blockOk saveOk actions).trace) ∧
    (sinkUids.length = 100 →
      countLookupCalls
        (blockUnlessFollowing u sinkUids lookupResult blockOk saveOk actions).trace = 1) := by
  constructor
  · intro h
    simp [blockUnlessFollowing, h, countExternalCalls, Ev.isExternal]
  · intro h
    have hnot : ¬ (sinkUids.length > 100) := by omega
    rcases lookupResult with _ | friendships
    · simp [blockUnlessFollowing, hnot, countLookupCalls, Ev.isLookup]
    · simp only [blockUnlessFollowing, hnot, if_false, if_neg hnot]
      have hz := countLookupCalls_eq_zero _
        (runActions_trace_not_lookup u (indexBy friendships) blockOk saveOk actions)
      simp only [countLookupCalls, List.filter_cons] at hz ⊢
      simp [Ev.isLookup, hz]

/-- C3 witness: at 101 sink uids no external call happens and an error is
logged; at 100 sink uids exactly one lookup call happens. -/
theorem blockUnlessFollowing_batch_cap_witness :
    (countExternalCalls
        (blockUnlessFollowing (BtUser.mk "u1" "alice" []) (List.replicate 101 "x")
          none (fun _ => true) (fun _ => true) []).trace = 0 ∧
      Ev.logError ∈
        (blockUnlessFollowing (BtUser.mk "u1" "alice" []) (List.replicate 101 "x")
          none (fun _ => true) (fun _ => true) []).trace) ∧
    countLookupCalls
        (blockUnlessFollowing (BtUser.mk "u1" "alice" []) (List.replicate 100 "x")
          (some []) (fun _ => true) (fun _ => true) []).trace = 1 :=
  ⟨(blockUnlessFollowing_batch_cap (BtUser.mk "u1" "alice" []) (List.replicate 101 "x")
      none (fun _ => true) (fun _ => true) []).1 (by decide),
   (blockUnlessFollowing_batch_cap (BtUser.mk "u1" "alice" []) (List.replicate 100 "x")
      (some []) (fun _ => true) (fun _ => true) []).2 (by decide)⟩

/-- C5: when the bulk lookup fails, the error is logged and no action of
the batch is classified or written: the run returns with every action
unreached and its stored status unchanged. -/
theorem blockUnlessFollowing_lookup_error (u : BtUser) (sinkUids : List String)
    (blockOk : String → Bool) (saveOk : Action → Bool) (actions : List Action)
    (h : sinkUids.length ≤ 100) :
    blockUnlessFollowing u sinkUids none blockOk saveOk actions =
      ⟨[], actions, [Ev.logDebug, Ev.lookupCall sinkUids, Ev.logError]⟩ ∧
    (∀ s, Ev.blockCall s ∉
      (blockUnlessFollowing u sinkUids none blockOk saveOk actions).trace) := by
  have hnot : ¬ (sinkUids.length > 100) := by omega
  constructor
  · simp [blockUnlessFollowing, hnot]
  · intro s
    simp [blockUnlessFollowing, hnot]

/-- C5 witness: a concrete one-action batch with a failed lookup keeps the
action pending and issues no block write. -/
theorem blockUnlessFollowing_lookup_error_witness :
    blockUnlessFollowing (BtUser.mk "u1" "alice" []) ["s1"] none
        (fun _ => true) (fun _ => true)
        [Action.mk "u1" "s1" "block" Status.pending 0] =
      ⟨[], [Action.mk "u1" "s1" "block" Status.pending 0],
        [Ev.logDebug, Ev.lookupCall ["s1"], Ev.logError]⟩ ∧
    (∀ s, Ev.blockCall s ∉
      (blockUnlessFollowing (BtUser.mk "u1" "alice" []) ["s1"] none
        (fun _ => true) (fun _ => true)
        [Action.mk "u1" "s1" "block" Status.pending 0]).trace) :=
  blockUnlessFollowing_lookup_error (BtUser.mk "u1" "alice" []) ["s1"]
    (fun _ => true) (fun _ => true)
    [Action.mk "u1" "s1" "block" Status.pending 0] (by decide)

/-- C6: the status writer sets the status, logs first on a save error, and
invokes the continuation exactly once whether the save succeeds or fails. -/
theorem setActionStatus_invokes_next_once (a : Action) (newState : Status)
    (outcome : SaveOutcome) :
    (setActionStatus a newState outcome).nextCalls = 1 ∧
    (setActionStatus a newState outcome).action.status = newState ∧
    (outcome = SaveOutcome.fail →
      Ev.logError ∈ (setActionStatus a newState outcome).trace) := by
  cases outcome <;> simp [setActionStatus, savePromise]

/-- C6 witness: a failed save still yields one continuation call and a
logged error. -/
theorem setActionStatus_invokes_next_once_witness :
    (setActionStatus (Action.mk "u1" "s1" "block" Status.pending 0)
        Status.done SaveOutcome.fail).nextCalls = 1 ∧
    Ev.logError ∈ (setActionStatus (Action.mk "u1" "s1" "block" Status.pending 0)
        Status.done SaveOutcome.fail).trace :=
  ⟨(setActionStatus_invokes_next_once (Action.mk "u1" "s1" "block" Status.pending 0)
      Status.done SaveOutcome.fail).1,
   (setActionStatus_invokes_next_once (Action.mk "u1" "s1" "block" Status.pending 0)
      Status.done SaveOutcome.fail).2.2 rfl⟩

/-- C9: the executor returns at once on a null or empty list, and on any
finite batch every action yields at most one visit: the visited prefix and
the unreached rest partition the input in order, so there are at most n
classification steps for n actions. -/
theorem executor_terminates_and_visits_once (u : BtUser)
    (fr : String → Option Friendship) (blockOk : String → Bool)
    (saveOk : Action → Bool) :
    blockUnlessFollowingWithFriendships u fr blockOk saveOk none =
      RunResult.mk [] [] [] ∧
    blockUnlessFollowingWithFriendships u fr blockOk saveOk (some []) =
      RunResult.mk [] [] [] ∧
    ∀ l : List Action,
      (runActions u fr blockOk saveOk l).processed.map Prod.fst ++
        (runActions u fr blockOk saveOk l).remaining = l ∧
      (runActions u fr blockOk saveOk l).processed.length ≤ l.length := by
  refine ⟨rfl, rfl, ?_⟩
  intro l
  induction l with
  | nil => exact ⟨rfl, Nat.le_refl 0⟩
  | cons a rest ih =>
    simp only [runActions]
    rcases hc : classify u fr a with _ | st
    · by_cases hb : blockOk a.sink_uid = true
      · simp only [hb, if_true, List.map_cons, List.cons_append, List.length_cons]
        exact ⟨by rw [ih.1], Nat.succ_le_succ ih.2⟩
      · simp only [Bool.not_eq_true] at hb
        simp [hb]
    · simp only [List.map_cons, List.cons_append, List.length_cons]
      exact ⟨by rw [ih.1], Nat.succ_le_succ ih.2⟩

/-- C10: an empty selected batch performs no external call of any kind;
any run whose trace holds an external call had a nonempty batch. -/
theorem processActionsForUser_empty_batch (u : BtUser)
    (lookupResult : Option (List Friendship)) (blockOk : String → Bool)
    (saveOk : Action → Bool) :
    processActionsForUser u lookupResult blockOk saveOk [] =
      RunResult.mk [] [] [] ∧
    ∀ actions : List Action,
      0 < countExternalCalls
        (processActionsForUser u lookupResult blockOk saveOk actions).trace →
      actions ≠ [] := by
  constructor
  · rfl
  · intro actions h hnil
    subst hnil
    simp [processActionsForUser, countExternalCalls] at h

/-- C10 witness: a concrete nonempty batch does make an external call, and
the theorem recovers that its batch is nonempty. -/
theorem processActionsForUser_empty_batch_witness :
    [Action.mk "u1" "s1" "block" Status.pending 0] ≠ ([] : List Action) :=
  (processActionsForUser_empty_batch (BtUser.mk "u1" "alice" []) (some [])
      (fun _ => true) (fun _ => true)).2
    [Action.mk "u1" "s1" "block" Status.pending 0] (by decide)

/-- A self-block action always classifies to a cancel or defer outcome. -/
theorem classify_self_is_cancel (u : BtUser) (fr : String → Option Friendship)
    (a : Action) (hs : a.sink_uid = u.uid) :
    classify u fr a = some Status.deferred_target_suspended ∨
    classify u fr a = some Status.cancelled_duplicate ∨
    classify u fr a = some Status.cancelled_following ∨
    classify u fr a = some Status.cancelled_unblocked ∨
    classify u fr a = some Status.cancelled_self := by
  rcases hf : fr a.sink_uid with _ | f
  · exact Or.inl (classify_of_no_friendship u fr a hf)
  · simp only [classify, hf]
    split_ifs with h1 h2 h3 h4
    · exact Or.inr (Or.inl rfl)
    · exact Or.inr (Or.inr (Or.inl rfl))
    · exact Or.inr (Or.inr (Or.inr (Or.inl rfl)))
    · exact Or.inr (Or.inr (Or.inr (Or.inr rfl)))
    · exact absurd (by simp [hs]) h4

/-- C7: an action whose sink id equals the source id never ends DONE: when
visited it resolves to a deferred/cancelled outcome, when unreached it
keeps its stored (pending) status, and no block write is ever issued for
the source's own uid. -/
theorem self_block_never_done (u : BtUser) (fr : String → Option Friendship)
    (blockOk : String → Bool) (saveOk : Action → Bool) (l : List Action)
    (hp : ∀ a ∈ l, a.status = Status.pending) :
    (∀ p ∈ (runActions u fr blockOk saveOk l).processed, p.1.sink_uid = u.uid →
      p.2 ≠ Status.done ∧
      (p.2 = Status.deferred_target_suspended ∨ p.2 = Status.cancelled_duplicate ∨
       p.2 = Status.cancelled_following ∨ p.2 = Status.cancelled_unblocked ∨
       p.2 = Status.cancelled_self)) ∧
    (∀ a ∈ (runActions u fr blockOk saveOk l).remaining,
      a.sink_uid = u.uid → a.status ≠ Status.done) ∧
    Ev.blockCall u.uid ∉ (runActions u fr blockOk saveOk l).trace := by
  induction l with
  | nil =>
    refine ⟨?_, ?_, ?_⟩
    · intro p hmem
      cases hmem
    · intro b hmem
      cases hmem
    · intro hmem
      cases hmem
  | cons a rest ih =>
    have hrest : ∀ b ∈ rest, b.status = Status.pending :=
      fun b hb => hp b (List.mem_cons_of_mem a hb)
    have ih' := ih hrest
    simp only [runActions]
    rcases hc : classify u fr a with _ | st
    · have hne : u.uid ≠ a.sink_uid := classify_eq_none_not_self u fr a hc
      by_cases hb : blockOk a.sink_uid = true
      · rw [if_pos hb]
        refine ⟨?_, ih'.2.1, ?_⟩
        · intro p hmem hsink
          rcases List.mem_cons.mp hmem with rfl | hmem
          · exact absurd hsink.symm hne
          · exact ih'.1 p hmem hsink
        · cases hsave : saveOk a <;> simp [hsave, hne, ih'.2.2]
      · simp only [Bool.not_eq_true] at hb
        simp only [hb, Bool.false_eq_true, if_false]
        refine ⟨?_, ?_, ?_⟩
        · intro p hmem hsink
          have hp1 := List.mem_singleton.mp hmem
          subst hp1
          exact absurd hsink.symm hne
        · intro b hmem hsink
          rw [hrest b hmem]
          intro h1
          cases h1
        · simp [hne]
    · refine ⟨?_, ih'.2.1, ?_⟩
      · intro p hmem hsink
        rcases List.mem_cons.mp hmem with rfl | hmem
        · have h5 := classify_self_is_cancel u fr a hsink
          rw [hc] at h5
          rcases h5 with h | h | h | h | h <;>
            (injection h with h; subst h; exact ⟨by simp, by simp⟩)
        · exact ih'.1 p hmem hsink
      · cases hsave : saveOk a <;> simp [hsave, ih'.2.2]

/-- C7 witness: a concrete batch holding only a self-block never issues a
block write for the source's own uid. -/
theorem self_block_never_done_witness :
    Ev.blockCall "u1" ∉
      (runActions (BtUser.mk "u1" "alice" [])
        (fun _ => some (Friendship.mk "u1" "alice" []))
        (fun _ => true) (fun _ => true)
        [Action.mk "u1" "u1" "block" Status.pending 0]).trace :=
  (self_block_never_done (BtUser.mk "u1" "alice" [])
    (fun _ => some (Friendship.mk "u1" "alice" []))
    (fun _ => true) (fun _ => true)
    [Action.mk "u1" "u1" "block" Status.pending 0] (by decide)).2.2

/-- C1 (code bug, failing input): a batch of two clear actions whose first
block write fails. As the claim says, the error is logged and the first
action's status stays PENDING; but the error callback of
`twitter.blocks('create')` (lines 223-228) never invokes `next`, so the
second action is never processed this pass — the executor stalls, against
the claim (and the intent documented at `setActionStatus`). -/
theorem block_write_error_stalls_executor :
    runActions (BtUser.mk "u1" "alice" [])
        (indexBy [Friendship.mk "s1" "bob" [], Friendship.mk "s2" "carol" []])
        (fun s => !(s == "s1")) (fun _ => true)
        [Action.mk "u1" "s1" "block" Status.pending 0,
         Action.mk "u1" "s2" "block" Status.pending 1] =
      RunResult.mk
        [(Action.mk "u1" "s1" "block" Status.pending 0, Status.pending)]
        [Action.mk "u1" "s2" "block" Status.pending 1]
        [Ev.logDebug, Ev.blockCall "s1", Ev.logError, Ev.logError] := by
  decide

/-- C4 (counterexample): in a two-action batch whose first action is clear
but whose block write fails, the second action's sink id has no entry in
the relationship map, yet its resulting status is PENDING, not
DEFERRED_TARGET_SUSPENDED — the stalled executor never reaches it. -/
theorem missing_entry_after_failed_write_not_deferred :
    indexBy [Friendship.mk "s1" "bob" []] "s2" = none ∧
    (runActions (BtUser.mk "u1" "alice" []) (indexBy [Friendship.mk "s1" "bob" []])
        (fun _ => false) (fun _ => true)
        [Action.mk "u1" "s1" "block" Status.pending 0,
         Action.mk "u1" "s2" "block" Status.pending 1]).finalStatuses =
      [(Action.mk "u1" "s1" "block" Status.pending 0, Status.pending),
       (Action.mk "u1" "s2" "block" Status.pending 1, Status.pending)] ∧
    Status.pending ≠ Status.deferred_target_suspended := by
  decide

/-- C4 (amended): every action the executor visits whose sink id has no
entry in the relationship map gets status DEFERRED_TARGET_SUSPENDED, and
no block-write call is ever issued for a sink id absent from the map; an
action behind a failed block write is not visited this pass and keeps its
stored status. -/
theorem visited_missing_entry_deferred (u : BtUser) (fr : String → Option Friendship)
    (blockOk : String → Bool) (saveOk : Action → Bool) (l : List Action) :
    (∀ p ∈ (runActions u fr blockOk saveOk l).processed,
      fr p.1.sink_uid = none → p.2 = Status.deferred_target_suspended) ∧
    (∀ s, fr s = none → Ev.blockCall s ∉ (runActions u fr blockOk saveOk l).trace) := by
  induction l with
  | nil =>
    refine ⟨?_, ?_⟩
    · intro p hmem
      cases hmem
    · intro s _ hmem
      cases hmem
  | cons a rest ih =>
    simp only [runActions]
    rcases hc : classify u fr a with _ | st
    · have hf : fr a.sink_uid ≠ none := classify_eq_none_friendship u fr a hc
      by_cases hb : blockOk a.sink_uid = true
      · rw [if_pos hb]
        refine ⟨?_, ?_⟩
        · intro p hmem hn
          rcases List.mem_cons.mp hmem with rfl | hmem
          · exact absurd hn hf
          · exact ih.1 p hmem hn
        · intro s hs
          have hsne : s ≠ a.sink_uid := fun he => hf (he ▸ hs)
          cases hsave : saveOk a <;> simp [hsave, hsne, ih.2 s hs]
      · simp only [Bool.not_eq_true] at hb
        simp only [hb, Bool.false_eq_true, if_false]
        refine ⟨?_, ?_⟩
        · intro p hmem hn
          have hp1 := List.mem_singleton.mp hmem
          subst hp1
          exact absurd hn hf
        · intro s hs
          have hsne : s ≠ a.sink_uid := fun he => hf (he ▸ hs)
          simp [hsne]
    · refine ⟨?_, ?_⟩
      · intro p hmem hn
        rcases List.mem_cons.mp hmem with rfl | hmem
        · have h5 := classify_of_no_friendship u fr a hn
          rw [hc] at h5
          simpa using h5
        · exact ih.1 p hmem hn
      · intro s hs
        cases hsave : saveOk a <;> simp [hsave, ih.2 s hs]

/-- C4 (amended) witness: a visited action with a missing entry is
deferred, and no block write goes to a sink absent from the map. -/
theorem visited_missing_entry_deferred_witness :
    ((Action.mk "u1" "s9" "block" Status.pending 0,
        Status.deferred_target_suspended).2 = Status.deferred_target_suspended) ∧
    Ev.blockCall "s9" ∉
      (runActions (BtUser.mk "u1" "alice" []) (fun _ => none)
        (fun _ => true) (fun _ => true)
        [Action.mk "u1" "s9" "block" Status.pending 0]).trace :=
  ⟨(visited_missing_entry_deferred (BtUser.mk "u1" "alice" []) (fun _ => none)
      (fun _ => true) (fun _ => true)
      [Action.mk "u1" "s9" "block" Status.pending 0]).1
      (Action.mk "u1" "s9" "block" Status.pending 0,
        Status.deferred_target_suspended) (by decide) rfl,
   (visited_missing_entry_deferred (BtUser.mk "u1" "alice" []) (fun _ => none)
      (fun _ => true) (fun _ => true)
      [Action.mk "u1" "s9" "block" Status.pending 0]).2 "s9" rfl⟩

/-- Members of a group step come from the accumulator or are the new row. -/
theorem mem_groupStep (acc : List Action) (a x : Action) (h : x ∈ groupStep acc a) :
    x ∈ acc ∨ x = a := by
  unfold groupStep at h
  by_cases hc : acc.any (fun b => b.source_uid == a.source_uid) = true
  · rw [if_pos hc] at h
    exact Or.inl h
  · rw [if_neg hc] at h
    rcases List.mem_append.mp h with h1 | h1
    · exact Or.inl h1
    · exact Or.inr (List.mem_singleton.mp h1)

/-- A group step preserves pairwise-distinct source ids. -/
theorem pairwise_groupStep (acc : List Action) (a : Action)
    (h : acc.Pairwise (fun x y => x.source_uid ≠ y.source_uid)) :
    (groupStep acc a).Pairwise (fun x y => x.source_uid ≠ y.source_uid) := by
  unfold groupStep
  by_cases hc : acc.any (fun b => b.source_uid == a.source_uid) = true
  · rw [if_pos hc]
    exact h
  · rw [if_neg hc, List.pairwise_append]
    refine ⟨h, List.pairwise_singleton _ _, ?_⟩
    intro x hx y hy
    rw [List.mem_singleton] at hy
    subst hy
    intro he
    exact hc (List.any_eq_true.mpr ⟨x, hx, by simp [he]⟩)

/-- Folding group steps keeps membership within accumulator and input. -/
theorem mem_foldl_groupStep :
    ∀ (l acc : List Action) (x : Action), x ∈ l.foldl groupStep acc → x ∈ acc ∨ x ∈ l := by
  intro l
  induction l with
  | nil =>
    intro acc x h
    exact Or.inl h
  | cons a rest ih =>
    intro acc x h
    rcases ih (groupStep acc a) x h with hx | hx
    · rcases mem_groupStep acc a x hx with h1 | h1
      · exact Or.inl h1
      · exact Or.inr (h1 ▸ List.mem_cons_self a rest)
    · exact Or.inr (List.mem_cons_of_mem a hx)

/-- Folding group steps preserves pairwise-distinct source ids. -/
theorem pairwise_foldl_groupStep :
    ∀ (l acc : List Action),
      acc.Pairwise (fun x y => x.source_uid ≠ y.source_uid) →
      (l.foldl groupStep acc).Pairwise (fun x y => x.source_uid ≠ y.source_uid) := by
  intro l
  induction l with
  | nil =>
    intro acc h
    exact h
  | cons a rest ih =>
    intro acc h
    exact ih _ (pairwise_groupStep acc a h)

/-- C8: the enumeration query returns at most 300 pending block actions
with at most one representative per distinct source id, and the per-account
selection returns at most 100 of that account's pending block actions in
ascending `updatedAt` order. -/
theorem batch_selector_shape (db : List Action) (u : BtUser) :
    ((processBlocksQuery db).length ≤ 300 ∧
     (∀ a ∈ processBlocksQuery db, isPendingBlock a = true) ∧
     (processBlocksQuery db).Pairwise (fun x y => x.source_uid ≠ y.source_uid)) ∧
    ((getActions u db).length ≤ 100 ∧
     (∀ a ∈ getActions u db, a.source_uid = u.uid ∧ isPendingBlock a = true) ∧
     (getActions u db).Sorted updatedLE) := by
  refine ⟨⟨?_, ?_, ?_⟩, ?_, ?_, ?_⟩
  · exact List.length_take_le 300 _
  · intro a ha
    have h1 := List.take_subset 300 _ ha
    rcases mem_foldl_groupStep _ [] a h1 with h2 | h2
    · cases h2
    · exact (List.mem_filter.mp h2).2
  · exact (pairwise_foldl_groupStep _ [] List.Pairwise.nil).sublist
      (List.take_sublist _ _)
  · exact List.length_take_le 100 _
  · intro a ha
    have h1 := List.take_subset 100 _ ha
    have h2 := (List.mem_insertionSort updatedLE).mp h1
    have h3 := List.mem_filter.mp h2
    have h4 := h3.2
    simp only [Bool.and_eq_true, beq_iff_eq] at h4
    exact h4
  · exact (List.sorted_insertionSort updatedLE _).sublist (List.take_sublist _ _)

/-- C8 witness: a concrete single-row store evaluates both queries and the
selected rows satisfy the filters. -/
theorem batch_selector_shape_witness :
    isPendingBlock (Action.mk "u1" "s1" "block" Status.pending 0) = true ∧
    ((Action.mk "u1" "s1" "block" Status.pending 0).source_uid =
        (BtUser.mk "u1" "alice" []).uid ∧
      isPendingBlock (Action.mk "u1" "s1" "block" Status.pending 0) = true) :=
  ⟨(batch_selector_shape [Action.mk "u1" "s1" "block" Status.pending 0]
      (BtUser.mk "u1" "alice" [])).1.2.1
      (Action.mk "u1" "s1" "block" Status.pending 0) (by decide),
   (batch_selector_shape [Action.mk "u1" "s1" "block" Status.pending 0]
      (BtUser.mk "u1" "alice" [])).2.2.1
      (Action.mk "u1" "s1" "block" Status.pending 0) (by decide)⟩

end Blocktogether
